import Mathlib

/-!
Verification of the SBS EXR conversion orchestrator (`sbs_gui.py`).

The Python source is shallowly embedded: the filesystem is an explicit
value (directory listings plus the per-root status-store file), Python
floats that only ever hold division results of integer counts or POSIX
timestamps are modelled as `Rat`, and fallible operations return
`Except String` whose error payload names the Python exception type.
Python string operations (`sorted`, `lower`, `endswith`, `in`,
`replace`) are re-implemented over code points, matching CPython's
semantics on the ASCII file names the tool manipulates.
-/

namespace SbsGui

/-! ## Python string primitives -/

/-- Test whether `pat` is an initial segment of `s` (char lists). -/
def leadMatch : List Char → List Char → Bool
  | [], _ => true
  | _ :: _, [] => false
  | a :: as, b :: bs => a == b && leadMatch as bs

/-- Python `pat in s`: `pat` occurs contiguously inside `s`. -/
def hasSub (pat : List Char) : List Char → Bool
  | [] => leadMatch pat []
  | c :: rest => leadMatch pat (c :: rest) || hasSub pat rest

/-- Python `s.endswith(suffix)`. -/
def tailMatch (pat s : List Char) : Bool :=
  leadMatch pat.reverse s.reverse

/-- Structural worker for Python `replace`: the fuel (at least the
list length) makes the recursion structural, so it reduces in the
kernel.  On a match the scan continues after the matched occurrence
(non-overlapping, left to right). -/
def replaceFuel (pat rep : List Char) : Nat → List Char → List Char
  | _, [] => []
  | 0, l => l
  | fuel + 1, c :: rest =>
    if leadMatch pat (c :: rest) && 0 < pat.length then
      rep ++ replaceFuel pat rep fuel (List.drop pat.length (c :: rest))
    else
      c :: replaceFuel pat rep fuel rest

/-- Python `s.replace(old, new)` for a nonempty `old`: replace every
non-overlapping occurrence, scanning left to right. -/
def replaceFrom (pat rep l : List Char) : List Char :=
  replaceFuel pat rep l.length l

/-- Python `s.lower()` (ASCII case folding, as used on file names). -/
def lowerStr (s : String) : String :=
  ⟨s.data.map Char.toLower⟩

/-- Python `s.replace(old, new)` on `String`s. -/
def pyReplace (pat rep s : String) : String :=
  ⟨replaceFrom pat.data rep.data s.data⟩

/-- Python `pat in s` on `String`s. -/
def strHasSub (pat s : String) : Bool :=
  hasSub pat.data s.data

/-- Python `s.endswith(pat)` on `String`s. -/
def strEndsW (pat s : String) : Bool :=
  tailMatch pat.data s.data

/-- Python `s.startswith(pat)` on `String`s. -/
def strStartsW (pat s : String) : Bool :=
  leadMatch pat.data s.data

/-- Code-point comparison of strings, CPython's `<=` on `str`
(lexicographic over code points). -/
def listCharLe : List Char → List Char → Bool
  | [], _ => true
  | _ :: _, [] => false
  | a :: as, b :: bs =>
    a.toNat < b.toNat || (a.toNat == b.toNat && listCharLe as bs)

/-- String `<=` over code points. -/
def strLe (a b : String) : Bool :=
  listCharLe a.data b.data

/-- Insert a string into a list sorted by `strLe`, before any equal
element (keeps Python's stable-sort behaviour). -/
def insertSorted (x : String) : List String → List String
  | [] => [x]
  | y :: ys => if strLe x y then x :: y :: ys else y :: insertSorted x ys

/-- Python `sorted` on a list of strings (stable insertion sort by
code-point order). -/
def sortStrings : List String → List String
  | [] => []
  | x :: xs => insertSorted x (sortStrings xs)

/-- Stable insertion step for sorting by a string key. -/
def insertSortedBy {α : Type} (key : α → String) (x : α) : List α → List α
  | [] => [x]
  | y :: ys =>
    if strLe (key x) (key y) then x :: y :: ys else y :: insertSortedBy key x ys

/-- Python `sorted(l, key=...)` for a string key (stable). -/
def sortByKey {α : Type} (key : α → String) : List α → List α
  | [] => []
  | x :: xs => insertSortedBy key x (sortByKey key xs)

/-! ## Filesystem model

Directories are identified by their path string and carry the list of
entry names that `os.listdir`/`os.scandir` would return.  The status
store `.shot_status.json` files are kept separately with parsed
content: `none` stands for malformed JSON, `some m` for a JSON object
mapping shot names to records. -/

/-- Persisted per-shot status dictionary.  Each field is optional,
mirroring keys that may be absent from the JSON object; an empty Python
dict `{}` is the record with every field `none`. -/
structure StatusRec where
  path : Option String := none
  frames : Option Nat := none
  sbs_frames : Option Nat := none
  is_moved : Option Bool := none
  moved_path : Option String := none
  dropbox_status : Option String := none
  dropbox_progress : Option Rat := none
deriving DecidableEq, Repr, Inhabited

/-- The status store document: shot name to record, in insertion order
(Python dict semantics). -/
abbrev StatusMap := List (String × StatusRec)

/-- Filesystem snapshot: directory listings and status-store files. -/
structure FS where
  dirs : List (String × List String)
  statusFiles : List (String × Option StatusMap)
deriving DecidableEq, Repr

/-- Python `os.path.join` (posix flavour). -/
def pjoin (a b : String) : String := a ++ "/" ++ b

/-- Python dict assignment `d[k] = v`: update in place, or append,
preserving insertion order. -/
def upsert {α : Type} (l : List (String × α)) (k : String) (v : α) :
    List (String × α) :=
  if l.any (fun p => p.1 == k) then
    l.map (fun p => if p.1 == k then (k, v) else p)
  else
    l ++ [(k, v)]

/-- Directory existence test (`os.path.exists` on a directory path). -/
def dirExists (fs : FS) (p : String) : Bool :=
  (fs.dirs.lookup p).isSome

/-- `os.listdir p`: `none` when the directory does not exist
(`FileNotFoundError`). -/
def listDir (fs : FS) (p : String) : Option (List String) :=
  fs.dirs.lookup p

/-! ## Frame counting (`frame_count`, `sbs_frame_count`) -/

/-- Filter of `frame_count`: `f.lower().endswith(".exr") and "_SBS" not in f`. -/
def isSourceExr (f : String) : Bool :=
  strEndsW ".exr" (lowerStr f) && !(strHasSub "_SBS" f)

/-- Filter of `sbs_frame_count`: `f.lower().endswith(".exr")`. -/
def isExr (f : String) : Bool :=
  strEndsW ".exr" (lowerStr f)

/-- `frame_count(path)`: count non-converted `.exr` entries; a missing
directory (`FileNotFoundError`) counts as 0. -/
def frame_count (fs : FS) (path : String) : Nat :=
  match listDir fs path with
  | none => 0
  | some l => (l.filter isSourceExr).length

/-- `sbs_frame_count(path)`: count all `.exr` entries regardless of
name; a missing directory counts as 0. -/
def sbs_frame_count (fs : FS) (path : String) : Nat :=
  match listDir fs path with
  | none => 0
  | some l => (l.filter isExr).length

/-! ## Status store (`load_shot_statuses`, `save_shot_statuses`) -/

/-- Path of the status store under a root. -/
def statusPath (root : String) : String :=
  pjoin root ".shot_status.json"

/-- `load_shot_statuses(root)`: missing file yields `{}`; a present but
malformed file (`json.JSONDecodeError`) also yields `{}`. -/
def load_shot_statuses (fs : FS) (root : String) : StatusMap :=
  match fs.statusFiles.lookup (statusPath root) with
  | some (some m) => m
  | some none => []
  | none => []

/-- `save_shot_statuses(root, statuses)`: `open(status_file, "w")`
succeeds only when the parent directory `root` exists; otherwise Python
raises `FileNotFoundError`. -/
def save_shot_statuses (fs : FS) (root : String) (m : StatusMap) :
    Except String FS :=
  if dirExists fs root then
    .ok { fs with statusFiles := upsert fs.statusFiles (statusPath root) (some m) }
  else
    .error "FileNotFoundError"

/-! ## Shot snapshot (`Shot` dataclass) -/

/-- The `Shot` dataclass. -/
structure Shot where
  name : String
  path : String
  has_sbs : Bool
  frames : Nat
  sbs_frames : Nat
  needs_conversion : Bool
  conversion_progress : Rat
  dropbox_status : String
  dropbox_progress : Rat
  is_moved : Bool := false
  moved_path : String := ""
deriving DecidableEq, Repr, Inhabited

/-- `sbs_frames / frames if frames > 0 else 0.0`. -/
def conversionProgress (frames sbs : Nat) : Rat :=
  if frames > 0 then (sbs : Rat) / (frames : Rat) else 0

/-- The dropbox status derivation of `scan_shots` (lines 184-191):
progress at least 1 is Complete (clamped to 1), positive progress is
In Progress, otherwise Not Started. -/
def deriveDropbox (progress : Rat) : String × Rat :=
  if progress ≥ 1 then ("Complete", 1)
  else if progress > 0 then ("In Progress", progress)
  else ("Not Started", progress)

/-- Per-shot body of the `scan_shots` source-directory loop
(lines 159-215): counts source frames, decides `is_moved` and the SBS
frame count from the comp-path directory first and the local `_SBS`
directory second, derives progress and dropbox status, and produces
both the `Shot` snapshot and the updated status record. -/
def scanOneShot (fs : FS) (root comp name : String) (statuses : StatusMap) :
    Shot × StatusRec :=
  let shotPath := pjoin root name
  let frames := frame_count fs shotPath
  let sourceSbs := shotPath ++ "_SBS"
  let compSbs := pjoin comp (name ++ "_SBS")
  let sbsMoved :=
    if dirExists fs compSbs then (sbs_frame_count fs compSbs, true)
    else if dirExists fs sourceSbs then (sbs_frame_count fs sourceSbs, false)
    else (0, false)
  let sbsFrames := sbsMoved.1
  let isMoved := sbsMoved.2
  let st0 := (statuses.lookup name).getD {}
  let st1 := { st0 with is_moved := some isMoved }
  let needsB := decide (frames > sbsFrames)
  let progress := conversionProgress frames sbsFrames
  let dd := deriveDropbox progress
  let st2 := { st1 with
    dropbox_status := some dd.1, dropbox_progress := some dd.2,
    path := some shotPath, frames := some frames, sbs_frames := some sbsFrames }
  (⟨name, shotPath, !needsB, frames, sbsFrames, needsB, progress,
    dd.1, dd.2, isMoved, if isMoved then comp else ""⟩, st2)

/-- Filter applied to `os.scandir(root)` entries (line 156): keep
directories whose name is not hidden, not `__pycache__`, and does not
end in `_SBS`. -/
def keepEntry (fs : FS) (root n : String) : Bool :=
  dirExists fs (pjoin root n) && !(strStartsW "." n) &&
    !(n == "__pycache__") && !(strEndsW "_SBS" n)

/-- `scan_shots(root, ready_for_comp_path)`: scan the source root
(missing root yields no entries), merge ghost entries recorded as
moved whose comp directory still exists, persist the status store, and
return the shots sorted by name.  The final `save_shot_statuses` is
unconditional, so its `FileNotFoundError` propagates. -/
def scan_shots (fs : FS) (root comp : String) :
    Except String (List Shot × FS) :=
  let statuses := load_shot_statuses fs root
  let entries := sortStrings ((listDir fs root).getD [])
  let shotNames := entries.filter (keepEntry fs root)
  let scanned := shotNames.foldl
    (fun (acc : List (String × Shot) × StatusMap) n =>
      let sr := scanOneShot fs root comp n acc.2
      (upsert acc.1 n sr.1, upsert acc.2 n sr.2))
    ([], statuses)
  let shotsMap := scanned.1
  let statuses1 := scanned.2
  let shotsMap2 := statuses1.foldl
    (fun (m : List (String × Shot)) p =>
      if (m.lookup p.1).isNone && (p.2.is_moved.getD false) &&
          dirExists fs (pjoin comp (p.1 ++ "_SBS")) then
        upsert m p.1
          ⟨p.1, p.2.path.getD "", true, p.2.frames.getD 0,
            p.2.sbs_frames.getD 0, false, 1, "Complete", 1, true,
            p.2.moved_path.getD comp⟩
      else m)
    shotsMap
  match save_shot_statuses fs root statuses1 with
  | .error e => .error e
  | .ok fs' =>
    .ok (sortByKey Shot.name (shotsMap2.map Prod.snd), fs')

/-! ## Claim C1: scanning a missing source root -/

/-- Filesystem of the C1 failing input: the destination root `/comp`
exists, the source root `/src` does not. -/
def fsMissingRoot : FS := ⟨[("/comp", [])], []⟩

/-- C1.  The claim says scanning a source root that does not exist
returns an empty shot list and does not raise.  In the code the scan
loop indeed tolerates the missing root (it catches the
`FileNotFoundError` of `os.scandir` and finds no shots), but
`scan_shots` then unconditionally calls `save_shot_statuses`, whose
`open(root/.shot_status.json, "w")` raises `FileNotFoundError` because
the root directory does not exist.  So for every destination root, a
missing source root makes `scan_shots` raise instead of returning. -/
theorem scan_missing_root_raises (fs : FS) (root comp : String)
    (hdir : fs.dirs.lookup root = none) :
    scan_shots fs root comp = .error "FileNotFoundError" := by
  simp [scan_shots, load_shot_statuses, listDir, save_shot_statuses,
    dirExists, hdir, sortStrings]

/-- Witness for `scan_missing_root_raises` at the concrete failing
input. -/
theorem scan_missing_root_raises_witness :
    scan_shots fsMissingRoot "/src" "/comp" = .error "FileNotFoundError" :=
  scan_missing_root_raises fsMissingRoot "/src" "/comp" rfl

/-! ## Claim C9: status store load on missing or malformed file -/

/-- C9.  `load_shot_statuses` returns the empty map when the status
file is missing, and returns the empty map when the file's content is
malformed JSON (`json.JSONDecodeError` caught); being a total
function of the filesystem, it raises in neither case. -/
theorem load_statuses_missing_or_malformed (fs : FS) (root : String) :
    (fs.statusFiles.lookup (statusPath root) = none →
      load_shot_statuses fs root = []) ∧
    (fs.statusFiles.lookup (statusPath root) = some none →
      load_shot_statuses fs root = []) := by
  constructor <;> intro h <;> simp [load_shot_statuses, h]

/-- Filesystem with no status file under `/r`. -/
def fsNoStatusFile : FS := ⟨[("/r", [])], []⟩

/-- Filesystem whose status file under `/r` holds malformed JSON. -/
def fsBadStatusFile : FS := ⟨[("/r", [])], [("/r/.shot_status.json", none)]⟩

/-- Witness for `load_statuses_missing_or_malformed` on a missing and
on a malformed status file. -/
theorem load_statuses_missing_or_malformed_witness :
    load_shot_statuses fsNoStatusFile "/r" = [] ∧
    load_shot_statuses fsBadStatusFile "/r" = [] :=
  ⟨(load_statuses_missing_or_malformed fsNoStatusFile "/r").1 rfl,
   (load_statuses_missing_or_malformed fsBadStatusFile "/r").2 rfl⟩

/-! ## Order facts about the string sort -/

/-- The sortedness relation produced by Python `sorted` on strings. -/
def SLe (a b : String) : Prop := strLe a b = true

theorem listCharLe_total (x y : List Char) :
    listCharLe x y = true ∨ listCharLe y x = true := by
  induction x generalizing y with
  | nil => left; rfl
  | cons a as ih =>
    cases y with
    | nil => right; rfl
    | cons b bs =>
      by_cases hab : a.toNat = b.toNat
      · rcases ih bs with h | h
        · left
          simp [listCharLe, hab, h]
        · right
          simp [listCharLe, hab.symm, h]
      · rcases Nat.lt_or_ge a.toNat b.toNat with h | h
        · left
          simp [listCharLe, h]
        · right
          have : b.toNat < a.toNat := by omega
          simp [listCharLe, this]

theorem listCharLe_trans {x y z : List Char}
    (hxy : listCharLe x y = true) (hyz : listCharLe y z = true) :
    listCharLe x z = true := by
  induction x generalizing y z with
  | nil => rfl
  | cons a as ih =>
    cases y with
    | nil => simp [listCharLe] at hxy
    | cons b bs =>
      cases z with
      | nil => simp [listCharLe] at hyz
      | cons c cs =>
        simp only [listCharLe, Bool.or_eq_true, Bool.and_eq_true,
          decide_eq_true_eq, beq_iff_eq] at hxy hyz ⊢
        rcases hxy with h1 | ⟨h1, h1'⟩ <;> rcases hyz with h2 | ⟨h2, h2'⟩
        · left; omega
        · left; omega
        · left; omega
        · right; exact ⟨by omega, ih h1' h2'⟩

theorem sLe_total (a b : String) : SLe a b ∨ SLe b a :=
  listCharLe_total a.data b.data

theorem sLe_trans {a b c : String} (h1 : SLe a b) (h2 : SLe b c) : SLe a c :=
  listCharLe_trans h1 h2

theorem mem_insertSorted {x a : String} {l : List String} :
    a ∈ insertSorted x l ↔ a = x ∨ a ∈ l := by
  induction l with
  | nil => simp [insertSorted]
  | cons y ys ih =>
    by_cases h : strLe x y
    · simp [insertSorted, h]
    · simp only [insertSorted, h, Bool.false_eq_true, if_false,
        List.mem_cons, ih]
      tauto

theorem mem_sortStrings {a : String} {l : List String} :
    a ∈ sortStrings l ↔ a ∈ l := by
  induction l with
  | nil => simp [sortStrings]
  | cons x xs ih => simp [sortStrings, mem_insertSorted, ih]

theorem pairwise_insertSorted {x : String} {l : List String}
    (hl : l.Pairwise SLe) : (insertSorted x l).Pairwise SLe := by
  induction l with
  | nil => simp [insertSorted, List.Pairwise]
  | cons y ys ih =>
    rcases List.pairwise_cons.mp hl with ⟨hy, hys⟩
    by_cases h : strLe x y = true
    · simp only [insertSorted]
      rw [if_pos h]
      refine List.pairwise_cons.mpr ⟨?_, hl⟩
      intro b hb
      rcases List.mem_cons.mp hb with rfl | hb
      · exact h
      · exact sLe_trans h (hy b hb)
    · simp only [insertSorted]
      rw [if_neg h]
      refine List.pairwise_cons.mpr ⟨?_, ih hys⟩
      intro b hb
      rcases mem_insertSorted.mp hb with rfl | hb
      · rcases sLe_total b y with h' | h'
        · exact absurd h' h
        · exact h'
      · exact hy b hb

theorem pairwise_sortStrings (l : List String) :
    (sortStrings l).Pairwise SLe := by
  induction l with
  | nil => simp [sortStrings]
  | cons x xs ih => exact pairwise_insertSorted ih

/-! ## Frame Diff Engine (`_frame_list`) -/

/-- The converted-output name of a source frame:
`frame.replace(".exr", "_SBS.exr")`. -/
def sbsName (frame : String) : String :=
  pyReplace ".exr" "_SBS.exr" frame

/-- `_frame_list(path)`.  Inputs: the listing of the shot's source
directory and the state of the `<path>_SBS` directory — `none` when
that directory does not exist, `some none` when it exists but its
listing raises (`OSError`, swallowed by the code), `some (some l)`
when it lists `l`.  Source frames are the sorted `.exr` entries not
tagged `_SBS`; when the converted directory is readable, frames whose
converted name already exists there are dropped. -/
def frame_list (srcListing : List String)
    (sbsDir : Option (Option (List String))) : List String :=
  let sourceFrames := (sortStrings srcListing).filter isSourceExr
  match sbsDir with
  | none => sourceFrames
  | some none => sourceFrames
  | some (some sbsListing) =>
    sourceFrames.filter (fun f => !(sbsListing.contains (sbsName f)))

/-- C6.  `_frame_list` lists source frames in sorted lexical filename
order (`SLe` is code-point order, Python's string order), keeps exactly
the `.exr` entries not tagged `_SBS` whose corresponding converted
name is absent from the converted-output directory, and on source
`[a.exr, b.exr, c.exr]` with converted `[a_SBS.exr]` returns exactly
`[b.exr, c.exr]`. -/
theorem frame_list_spec :
    (∀ (src sbs : List String) (f : String),
      f ∈ frame_list src (some (some sbs)) ↔
        f ∈ src ∧ isSourceExr f = true ∧ sbsName f ∉ sbs) ∧
    (∀ (src : List String) (sbsDir : Option (Option (List String))),
      (frame_list src sbsDir).Pairwise SLe) ∧
    frame_list ["a.exr", "b.exr", "c.exr"] (some (some ["a_SBS.exr"])) =
      ["b.exr", "c.exr"] := by
  refine ⟨?_, ?_, ?_⟩
  · intro src sbs f
    show f ∈ ((sortStrings src).filter isSourceExr).filter
        (fun f => !(sbs.contains (sbsName f))) ↔ _
    constructor
    · intro h
      rcases List.mem_filter.mp h with ⟨h1, h2⟩
      rcases List.mem_filter.mp h1 with ⟨h0, hexr⟩
      refine ⟨mem_sortStrings.mp h0, hexr, fun hmem => ?_⟩
      have hc : sbs.contains (sbsName f) = true := List.elem_iff.mpr hmem
      rw [hc] at h2
      simp at h2
    · rintro ⟨h1, h2, h3⟩
      refine List.mem_filter.mpr
        ⟨List.mem_filter.mpr ⟨mem_sortStrings.mpr h1, h2⟩, ?_⟩
      show (!(sbs.contains (sbsName f))) = true
      cases hcb : sbs.contains (sbsName f) with
      | false => rfl
      | true => exact absurd (List.elem_iff.mp hcb) h3
  · intro src sbsDir
    have hs : ((sortStrings src).filter isSourceExr).Pairwise SLe :=
      (pairwise_sortStrings src).filter _
    cases sbsDir with
    | none => exact hs
    | some o =>
      cases o with
      | none => exact hs
      | some sbsListing => exact hs.filter _
  · rfl

/-! ## Claim C7: sync status derivation from conversion progress -/

/-- The claim's literal three-case mapping, modelled from the spec's
words: progress exactly 1.0 yields Complete, strictly between 0 and 1
yields In Progress, and otherwise Not Started. -/
def specSyncStatus (frames sbs : Nat) : String :=
  let p := conversionProgress frames sbs
  if p = 1 then "Complete"
  else if 0 < p ∧ p < 1 then "In Progress"
  else "Not Started"

/-- Filesystem whose shot `s01` has 2 source frames but 3 converted
frames (`convertedCount > frameCount`). -/
def fsOverCount : FS :=
  ⟨[("/r", ["s01"]), ("/r/s01", ["a.exr", "b.exr"]),
    ("/r/s01_SBS", ["x.exr", "y.exr", "z.exr"])], []⟩

/-- Counterexample to C7 as stated: a scanned shot with
`frameCount = 2` and `convertedCount = 3` has progress `3/2`, which the
code maps to Complete (the branch is `progress >= 1.0`), while the
claim's literal mapping (`=1.0` to Complete, `0<p<1` to In Progress,
otherwise Not Started) lands in the `otherwise` case, Not Started. -/
theorem scan_sync_status_claim_cex :
    (scanOneShot fsOverCount "/r" "/c" "s01" []).1.frames = 2 ∧
    (scanOneShot fsOverCount "/r" "/c" "s01" []).1.sbs_frames = 3 ∧
    (scanOneShot fsOverCount "/r" "/c" "s01" []).1.dropbox_status = "Complete" ∧
    specSyncStatus 2 3 = "Not Started" := by
  have hframes : frame_count fsOverCount (pjoin "/r" "s01") = 2 := rfl
  have hsbs : sbs_frame_count fsOverCount (pjoin "/r" "s01" ++ "_SBS") = 3 := rfl
  have hcomp : dirExists fsOverCount (pjoin "/c" ("s01" ++ "_SBS")) = false := rfl
  have hsrc : dirExists fsOverCount (pjoin "/r" "s01" ++ "_SBS") = true := rfl
  refine ⟨?_, ?_, ?_, ?_⟩ <;>
    simp only [scanOneShot, hframes, hsbs, hcomp, hsrc, specSyncStatus,
      Bool.false_eq_true, if_false, if_true, deriveDropbox, conversionProgress] <;>
    norm_num

theorem conversionProgress_ge_one_iff {frames sbs : Nat} (h : 0 < frames) :
    1 ≤ conversionProgress frames sbs ↔ frames ≤ sbs := by
  have hf : (0 : Rat) < (frames : Rat) := by exact_mod_cast h
  rw [conversionProgress, if_pos h, one_le_div hf]
  exact_mod_cast Iff.rfl

theorem conversionProgress_pos_iff {frames sbs : Nat} (h : 0 < frames) :
    0 < conversionProgress frames sbs ↔ 0 < sbs := by
  have hf : (0 : Rat) < (frames : Rat) := by exact_mod_cast h
  rw [conversionProgress, if_pos h, div_pos_iff_of_pos_right hf]
  exact_mod_cast Iff.rfl

/-- C7 amended.  For every scanned shot, `dropbox_status` and
`dropbox_progress` are derived from the conversion progress
`convertedCount/frameCount` (0 if `frameCount = 0`), but with the
Complete branch taken whenever progress is at least 1 (the code tests
`progress >= 1.0` and clamps the stored progress to 1):
Complete iff `0 < frameCount ≤ convertedCount`, In Progress iff
`0 < convertedCount < frameCount`, Not Started iff either count is 0,
and the stored progress is `min 1 progress`. -/
theorem scan_sync_status_from_counts (frames sbs : Nat) :
    ((deriveDropbox (conversionProgress frames sbs)).1 = "Complete" ↔
      0 < frames ∧ frames ≤ sbs) ∧
    ((deriveDropbox (conversionProgress frames sbs)).1 = "In Progress" ↔
      0 < sbs ∧ sbs < frames) ∧
    ((deriveDropbox (conversionProgress frames sbs)).1 = "Not Started" ↔
      frames = 0 ∨ sbs = 0) ∧
    (deriveDropbox (conversionProgress frames sbs)).2 =
      min 1 (conversionProgress frames sbs) ∧
    (∀ (fs : FS) (root comp name : String) (sts : StatusMap),
      ((scanOneShot fs root comp name sts).1.dropbox_status,
        (scanOneShot fs root comp name sts).1.dropbox_progress) =
        deriveDropbox (conversionProgress
          (scanOneShot fs root comp name sts).1.frames
          (scanOneShot fs root comp name sts).1.sbs_frames)) := by
  rcases Nat.eq_zero_or_pos frames with hf | hf
  · subst hf
    have hp : conversionProgress 0 sbs = 0 := by simp [conversionProgress]
    refine ⟨?_, ?_, ?_, ?_, fun fs root comp name sts => rfl⟩ <;>
      rw [hp] <;> norm_num [deriveDropbox] <;> decide
  · have hge := @conversionProgress_ge_one_iff frames sbs hf
    have hpos := @conversionProgress_pos_iff frames sbs hf
    refine ⟨?_, ?_, ?_, ?_, fun fs root comp name sts => rfl⟩
    · constructor
      · intro hc
        by_cases h1 : 1 ≤ conversionProgress frames sbs
        · exact ⟨hf, hge.mp h1⟩
        · exfalso
          by_cases h2 : 0 < conversionProgress frames sbs <;>
            simp [deriveDropbox, h1, h2] at hc
      · rintro ⟨-, hle⟩
        simp [deriveDropbox, hge.mpr hle]
    · constructor
      · intro hc
        by_cases h1 : 1 ≤ conversionProgress frames sbs
        · simp [deriveDropbox, h1] at hc
        · by_cases h2 : 0 < conversionProgress frames sbs
          · refine ⟨hpos.mp h2, ?_⟩
            by_contra hno
            exact h1 (hge.mpr (by omega))
          · simp [deriveDropbox, h1, h2] at hc
      · rintro ⟨hs, hlt⟩
        have h1 : ¬ 1 ≤ conversionProgress frames sbs := fun hc =>
          absurd (hge.mp hc) (by omega)
        simp [deriveDropbox, h1, hpos.mpr hs]
    · constructor
      · intro hc
        by_cases h1 : 1 ≤ conversionProgress frames sbs
        · simp [deriveDropbox, h1] at hc
        · by_cases h2 : 0 < conversionProgress frames sbs
          · simp [deriveDropbox, h1, h2] at hc
          · have : ¬ 0 < sbs := fun hs => h2 (hpos.mpr hs)
            omega
      · intro hz
        have hs : sbs = 0 := by omega
        have h2 : ¬ 0 < conversionProgress frames sbs := fun hc => by
          have := hpos.mp hc
          omega
        have h1 : ¬ 1 ≤ conversionProgress frames sbs := fun hc => by
          have := hge.mp hc
          omega
        simp [deriveDropbox, h1, h2]
    · by_cases h1 : 1 ≤ conversionProgress frames sbs
      · simp [deriveDropbox, h1, min_eq_left h1]
      · have hle : conversionProgress frames sbs ≤ 1 := le_of_not_le h1
        by_cases h2 : 0 < conversionProgress frames sbs <;>
          simp [deriveDropbox, h1, h2, min_eq_right hle]

/-! ## Conversion Scheduler (`_convert_worker.process`)

A job's interaction with the outside world is captured by its
`JobSpec`: whether the `NamedTemporaryFile` call succeeds (and the
fresh name it returns), and what the external tool invocation does —
raises before launching, or exits with a code and stderr text.  The
converted-output directory is a map from file name to a content tag;
the tag passed to `processJob` stands for the bytes this particular
job would produce. -/

/-- Outcome of the `subprocess.run` call for one frame. -/
inductive ToolOutcome where
  | launchFail (msg : String)
  | exited (code : Int) (errMsg : String)
deriving DecidableEq, Repr

/-- One conversion job and the behaviour of its external effects. -/
structure JobSpec where
  shotName : String
  frame : String
  tmpName : Option String
  tool : ToolOutcome
deriving DecidableEq, Repr

/-- The tuple returned by `process`: `(shot.name, frame, retcode, stderr)`. -/
structure JobResult where
  shotName : String
  frame : String
  retcode : Int
  msg : String
deriving DecidableEq, Repr

/-- Contents of a directory as file name to content tag. -/
abbrev DirFiles := List (String × Nat)

/-- `os.remove` of a file name. -/
def fileErase (files : DirFiles) (k : String) : DirFiles :=
  files.filter (fun p => p.1 != k)

/-- The `process` closure of `_convert_worker` (lines 725-766): create
a temp file in the output directory (report `-1` if that fails), run
the tool writing into the temp file; on exit code 0 atomically rename
the temp file onto `frame.replace(".exr", "_SBS.exr")`, otherwise
report the failure; the `finally` block removes the temp file when it
still exists. -/
def processJob (files : DirFiles) (j : JobSpec) (tag : Nat) :
    DirFiles × JobResult :=
  match j.tmpName with
  | none => (files, ⟨j.shotName, j.frame, -1, "Failed to create temp file"⟩)
  | some tmp =>
    let files1 := upsert files tmp tag
    match j.tool with
    | .launchFail msg => (fileErase files1 tmp, ⟨j.shotName, j.frame, -1, msg⟩)
    | .exited code err =>
      if code ≠ 0 then (fileErase files1 tmp, ⟨j.shotName, j.frame, code, err⟩)
      else (upsert (fileErase files1 tmp) (sbsName j.frame) tag,
        ⟨j.shotName, j.frame, 0, ""⟩)

/-- All jobs of a batch, executed to completion: every submitted future
is processed and contributes a result, whatever its outcome.  The tag
of each job is its submission index. -/
def runBatch (files : DirFiles) (jobs : List JobSpec) :
    DirFiles × List JobResult :=
  jobs.enum.foldl
    (fun acc p =>
      let fr := processJob acc.1 p.2 p.1
      (fr.1, acc.2 ++ [fr.2]))
    (files, [])

/-- A job fails when the temp file cannot be created, the tool cannot
be launched, or the tool exits non-zero. -/
def jobFails (j : JobSpec) : Bool :=
  j.tmpName.isNone ||
    (match j.tool with
     | .launchFail _ => true
     | .exited code _ => code != 0)

theorem lookup_none_filter_ne {α : Type} {l : List (String × α)} {k : String}
    (h : l.lookup k = none) : l.filter (fun p => p.1 != k) = l := by
  induction l with
  | nil => rfl
  | cons a as ih =>
    rw [List.lookup] at h
    by_cases hk : k == a.1
    · simp [hk] at h
    · have hne : a.1 ≠ k := fun he => hk (by simp [he])
      have : (a.1 != k) = true := bne_iff_ne.mpr hne
      simp only [List.filter_cons, this, if_true]
      rw [ih (by simpa [hk] using h)]

theorem lookup_none_any_false {α : Type} {l : List (String × α)} {k : String}
    (h : l.lookup k = none) : l.any (fun p => p.1 == k) = false := by
  induction l with
  | nil => rfl
  | cons a as ih =>
    rw [List.lookup] at h
    by_cases hk : k == a.1
    · simp [hk] at h
    · have hne : a.1 ≠ k := fun he => hk (by simp [he])
      simp only [List.any_cons, Bool.or_eq_false_iff]
      exact ⟨by simpa using hne, ih (by simpa [hk] using h)⟩

theorem upsert_absent {α : Type} {l : List (String × α)} {k : String} (v : α)
    (h : l.lookup k = none) : upsert l k v = l ++ [(k, v)] := by
  rw [upsert, lookup_none_any_false h]
  simp

theorem fileErase_fresh {files : DirFiles} {tmp : String} (tag : Nat)
    (h : files.lookup tmp = none) :
    fileErase (upsert files tmp tag) tmp = files := by
  rw [upsert_absent _ h, fileErase, List.filter_append, lookup_none_filter_ne h]
  simp

/-- C2.  A conversion job that fails — temp-file creation error,
tool launch failure, or non-zero exit — leaves the output directory
exactly as it was (the final destination file is neither created nor
modified and the temporary file is gone) and reports a non-zero
retcode; and every job of a batch is processed to completion
regardless of how many jobs fail, so sibling jobs of the same or
other shots are not prevented. -/
theorem failed_job_atomic_and_batch_continues
    (files : DirFiles) (j : JobSpec) (tag : Nat)
    (hfresh : ∀ t, j.tmpName = some t → files.lookup t = none)
    (hfail : jobFails j = true) :
    ((processJob files j tag).1 = files ∧
      (processJob files j tag).2.retcode ≠ 0) ∧
    (∀ (files0 : DirFiles) (jobs : List JobSpec),
      (runBatch files0 jobs).2.length = jobs.length) := by
  constructor
  · cases htmp : j.tmpName with
    | none => simp [processJob, htmp]
    | some tmp =>
      have hf := hfresh tmp htmp
      cases htool : j.tool with
      | launchFail msg =>
        simp [processJob, htmp, htool, fileErase_fresh tag hf]
      | exited code err =>
        have hcode : code ≠ 0 := by
          simp [jobFails, htmp, htool] at hfail
          exact hfail
        simp [processJob, htmp, htool, hcode, fileErase_fresh tag hf]
  · intro files0 jobs
    suffices h : ∀ (ps : List (Nat × JobSpec)) (acc : DirFiles × List JobResult),
        (ps.foldl (fun acc p =>
          let fr := processJob acc.1 p.2 p.1
          (fr.1, acc.2 ++ [fr.2])) acc).2.length = acc.2.length + ps.length by
      rw [runBatch, h]
      simp [List.enum_length]
    intro ps
    induction ps with
    | nil => intro acc; simp
    | cons p ps ih =>
      intro acc
      rw [List.foldl_cons, ih]
      simp
      omega

/-- Witness for `failed_job_atomic_and_batch_continues`: a non-zero
exit at a concrete input leaves a nonempty output directory unchanged,
and the three-job batch (two failures, one success) yields three
results. -/
theorem failed_job_atomic_and_batch_continues_witness :
    ((processJob [("old_SBS.exr", 7)]
        ⟨"s1", "a.exr", some "tmp0.exr", .exited 1 "boom"⟩ 0).1 =
      [("old_SBS.exr", 7)] ∧
      (processJob [("old_SBS.exr", 7)]
        ⟨"s1", "a.exr", some "tmp0.exr", .exited 1 "boom"⟩ 0).2.retcode ≠ 0) ∧
    (∀ (files0 : DirFiles) (jobs : List JobSpec),
      (runBatch files0 jobs).2.length = jobs.length) :=
  failed_job_atomic_and_batch_continues [("old_SBS.exr", 7)]
    ⟨"s1", "a.exr", some "tmp0.exr", .exited 1 "boom"⟩ 0
    (fun t ht => by cases ht; rfl) rfl

/-! ## Progress Aggregator (`_convert_worker` completion loop)

Lines 784-797: `shot_progress` starts at 0 for every shot of the run,
and for each completed future the overall `done` counter and the
completed job's per-shot `done` counter are incremented by one,
unconditionally (failures count as done too).  The `order` list below
is the sequence of shot names carried by the completed futures, in
completion order — which is arbitrary. -/

/-- The `shot_progress` dict with every `done` at 0. -/
def shotNamesInit (shotNames : List String) : List (String × Nat) :=
  shotNames.map (fun n => (n, 0))

/-- `shot_progress[shot_name]["done"] += 1`. -/
def bumpShot (m : List (String × Nat)) (n : String) : List (String × Nat) :=
  m.map (fun p => if p.1 = n then (p.1, p.2 + 1) else p)

/-- Read a shot's done counter (0 for a shot not in the run). -/
def lookupDone (m : List (String × Nat)) (n : String) : Nat :=
  match m with
  | [] => 0
  | p :: rest => if p.1 = n then p.2 else lookupDone rest n

/-- Overall and per-shot done counters. -/
structure Counters where
  done : Nat
  perShot : List (String × Nat)
deriving DecidableEq, Repr

/-- Processing one completed future: `done += 1` and the per-shot
bump; these are the values emitted in the `("overall", ...)` and
`("shot", ...)` events. -/
def stepCounters (c : Counters) (shotName : String) : Counters :=
  ⟨c.done + 1, bumpShot c.perShot shotName⟩

/-- The sequence of counter states over the event stream of one run
(initial state included). -/
def counterTrace (shotNames order : List String) : List Counters :=
  order.scanl stepCounters ⟨0, shotNamesInit shotNames⟩

/-- The counters after the run completes. -/
def finalCounters (shotNames order : List String) : Counters :=
  order.foldl stepCounters ⟨0, shotNamesInit shotNames⟩

/-- Pointwise order on counter states: the overall counter and every
per-shot counter are no smaller. -/
def counterLE (a b : Counters) : Prop :=
  a.done ≤ b.done ∧ ∀ n, lookupDone a.perShot n ≤ lookupDone b.perShot n

theorem bumpShot_cons (a : String × Nat) (as : List (String × Nat)) (s : String) :
    bumpShot (a :: as) s =
      (if a.1 = s then (a.1, a.2 + 1) else a) :: bumpShot as s := rfl

theorem lookupDone_cons (p : String × Nat) (rest : List (String × Nat)) (n : String) :
    lookupDone (p :: rest) n = if p.1 = n then p.2 else lookupDone rest n := rfl

theorem lookupDone_bumpShot_le (m : List (String × Nat)) (s n : String) :
    lookupDone m n ≤ lookupDone (bumpShot m s) n := by
  induction m with
  | nil => simp [bumpShot, lookupDone]
  | cons a as ih =>
    rw [bumpShot_cons, lookupDone_cons, lookupDone_cons]
    by_cases hk : a.1 = s
    · rw [if_pos hk]
      by_cases hn : a.1 = n
      · rw [if_pos hn, if_pos hn]
        omega
      · rw [if_neg hn, if_neg hn]
        exact ih
    · rw [if_neg hk]
      by_cases hn : a.1 = n
      · rw [if_pos hn, if_pos hn]
      · rw [if_neg hn, if_neg hn]
        exact ih

theorem counterLE_step (c : Counters) (s : String) :
    counterLE c (stepCounters c s) :=
  ⟨Nat.le_succ _, fun n => lookupDone_bumpShot_le c.perShot s n⟩

theorem head_scanl {α β : Type} (f : β → α → β) (b : β) (l : List α) :
    ∃ t, List.scanl f b l = b :: t := by
  cases l with
  | nil => exact ⟨[], rfl⟩
  | cons a as => exact ⟨List.scanl f (f b a) as, rfl⟩

theorem chain'_scanl {α β : Type} (R : β → β → Prop) (f : β → α → β)
    (hstep : ∀ b a, R b (f b a)) (b : β) (l : List α) :
    List.Chain' R (List.scanl f b l) := by
  induction l generalizing b with
  | nil => simp
  | cons a as ih =>
    rw [List.scanl]
    rcases head_scanl f (f b a) as with ⟨t, ht⟩
    rw [ht]
    refine List.Chain'.cons ?_ ?_
    · exact hstep b a
    · rw [← ht]
      exact ih (f b a)

theorem bumpShot_keys (m : List (String × Nat)) (s : String) :
    (bumpShot m s).map Prod.fst = m.map Prod.fst := by
  induction m with
  | nil => rfl
  | cons a as ih =>
    by_cases hk : a.1 = s <;>
      simp only [bumpShot, List.map_cons, hk, if_true, if_false] <;>
      simp only [bumpShot] at ih <;>
      rw [ih]

theorem bumpShot_absent {m : List (String × Nat)} {s : String}
    (h : s ∉ m.map Prod.fst) : bumpShot m s = m := by
  induction m with
  | nil => rfl
  | cons a as ih =>
    simp only [List.map_cons, List.mem_cons] at h
    push_neg at h
    have hk : ¬ a.1 = s := fun he => h.1 he.symm
    simp only [bumpShot, List.map_cons, hk, if_false]
    simp only [bumpShot] at ih
    rw [ih h.2]

theorem sum_bumpShot {m : List (String × Nat)} {s : String}
    (hmem : s ∈ m.map Prod.fst) (hnd : (m.map Prod.fst).Nodup) :
    ((bumpShot m s).map Prod.snd).sum = ((m.map Prod.snd).sum) + 1 := by
  induction m with
  | nil => simp at hmem
  | cons a as ih =>
    simp only [List.map_cons, List.nodup_cons] at hnd
    rw [List.map_cons] at hmem
    by_cases hk : a.1 = s
    · have habs : s ∉ as.map Prod.fst := hk ▸ hnd.1
      rw [bumpShot_cons, if_pos hk, bumpShot_absent habs]
      simp only [List.map_cons, List.sum_cons]
      omega
    · have hs : s ∈ as.map Prod.fst := by
        rcases List.mem_cons.mp hmem with he | hm
        · exact absurd he.symm hk
        · exact hm
      have hsum := ih hs hnd.2
      rw [bumpShot_cons, if_neg hk]
      simp only [List.map_cons, List.sum_cons, hsum]
      omega

theorem finalCounters_invariant (order : List String) (c : Counters)
    (hmem : ∀ s ∈ order, s ∈ c.perShot.map Prod.fst)
    (hnd : (c.perShot.map Prod.fst).Nodup) :
    (order.foldl stepCounters c).done = c.done + order.length ∧
    ((order.foldl stepCounters c).perShot.map Prod.snd).sum =
      (c.perShot.map Prod.snd).sum + order.length ∧
    (order.foldl stepCounters c).perShot.map Prod.fst =
      c.perShot.map Prod.fst := by
  induction order generalizing c with
  | nil => simp
  | cons s os ih =>
    have hmem' : ∀ x ∈ os, x ∈ (stepCounters c s).perShot.map Prod.fst := by
      intro x hx
      rw [stepCounters, bumpShot_keys]
      exact hmem x (List.mem_cons_of_mem s hx)
    have hnd' : ((stepCounters c s).perShot.map Prod.fst).Nodup := by
      rw [stepCounters, bumpShot_keys]
      exact hnd
    rcases ih (stepCounters c s) hmem' hnd' with ⟨h1, h2, h3⟩
    refine ⟨?_, ?_, ?_⟩
    · rw [List.foldl_cons, h1, stepCounters]
      simp
      omega
    · rw [List.foldl_cons, h2, stepCounters]
      rw [sum_bumpShot (hmem s (List.mem_cons_self s os)) hnd]
      simp
      omega
    · rw [List.foldl_cons, h3, stepCounters, bumpShot_keys]

theorem shotNamesInit_keys (l : List String) :
    (shotNamesInit l).map Prod.fst = l := by
  induction l with
  | nil => rfl
  | cons x xs ih => simpa [shotNamesInit] using ih

theorem shotNamesInit_sum (l : List String) :
    ((shotNamesInit l).map Prod.snd).sum = 0 := by
  induction l with
  | nil => rfl
  | cons x xs ih => simpa [shotNamesInit] using ih

/-- C8.  Over the event stream of a conversion run whose completed
futures carry shot names `order` (each a shot of the run, shot names
unique), the final overall done count equals the number of completed
jobs and equals the sum of the per-shot done counts, and along the
whole emitted stream both the overall counter and every per-shot
counter are monotonically non-decreasing. -/
theorem convert_counters_sum_and_monotone (shotNames order : List String)
    (hmem : ∀ s ∈ order, s ∈ shotNames) (hnd : shotNames.Nodup) :
    (finalCounters shotNames order).done = order.length ∧
    (finalCounters shotNames order).done =
      (((finalCounters shotNames order).perShot.map Prod.snd).sum) ∧
    List.Chain' counterLE (counterTrace shotNames order) := by
  have hkeys : (shotNamesInit shotNames).map Prod.fst = shotNames :=
    shotNamesInit_keys shotNames
  have hmem0 : ∀ s ∈ order, s ∈ (shotNamesInit shotNames).map Prod.fst := by
    rw [hkeys]; exact hmem
  have hnd0 : ((shotNamesInit shotNames).map Prod.fst).Nodup := by
    rw [hkeys]; exact hnd
  rcases finalCounters_invariant order ⟨0, shotNamesInit shotNames⟩ hmem0 hnd0
    with ⟨h1, h2, -⟩
  have hsum0 : ((shotNamesInit shotNames).map Prod.snd).sum = 0 :=
    shotNamesInit_sum shotNames
  refine ⟨?_, ?_, ?_⟩
  · rw [finalCounters, h1]
    simp
  · rw [finalCounters, h1, h2, hsum0]
  · exact chain'_scanl counterLE stepCounters counterLE_step _ order

/-- Witness for `convert_counters_sum_and_monotone` on a two-shot run
with three completed jobs. -/
theorem convert_counters_sum_and_monotone_witness :
    (finalCounters ["s1", "s2"] ["s1", "s2", "s1"]).done = 3 ∧
    (finalCounters ["s1", "s2"] ["s1", "s2", "s1"]).done =
      (((finalCounters ["s1", "s2"] ["s1", "s2", "s1"]).perShot.map
        Prod.snd).sum) ∧
    List.Chain' counterLE (counterTrace ["s1", "s2"] ["s1", "s2", "s1"]) :=
  convert_counters_sum_and_monotone ["s1", "s2"] ["s1", "s2", "s1"]
    (by decide) (by decide)

/-! ## Promotion (`_move_multiple_worker`) -/

/-- `shutil.move(src, dst)` of a directory: fails when the source is
gone or the destination's parent directory does not exist. -/
def shutilMove (fs : FS) (src dstParent dstName : String) : Except String FS :=
  if dirExists fs dstParent then
    match fs.dirs.lookup src with
    | none => .error "FileNotFoundError"
    | some listing =>
      .ok { fs with
        dirs := upsert (fs.dirs.filter (fun p => p.1 != src))
          (pjoin dstParent dstName) listing }
  else .error "FileNotFoundError"

/-- Loop body of `_move_multiple_worker` (lines 626-643) for one shot:
log the attempt; skip (with a log line) when the source `_SBS`
directory is missing or the destination already exists; otherwise move
the directory, then load, update (`setdefault(...).update(...)`) and
save the status store of the current folder, logging success, any
exception being caught and logged as a failure. -/
def moveOneShot (cur dest : String) (st : FS × List String) (shot : Shot) :
    FS × List String :=
  let fs := st.1
  let log := st.2 ++ ["Moving " ++ shot.name ++ "_SBS..."]
  let srcP := shot.path ++ "_SBS"
  let dstP := pjoin dest (shot.name ++ "_SBS")
  if !(dirExists fs srcP) || dirExists fs dstP then
    (fs, log ++ ["Skipping " ++ shot.name ++ "_SBS (source missing or destination exists)."])
  else
    match shutilMove fs srcP dest (shot.name ++ "_SBS") with
    | .error e => (fs, log ++ ["Failed to move " ++ shot.name ++ "_SBS: " ++ e])
    | .ok fs1 =>
      let statuses := load_shot_statuses fs1 cur
      let st0 := (statuses.lookup shot.name).getD {}
      let st1 := { st0 with is_moved := some true, moved_path := some dest }
      match save_shot_statuses fs1 cur (upsert statuses shot.name st1) with
      | .error e => (fs1, log ++ ["Failed to move " ++ shot.name ++ "_SBS: " ++ e])
      | .ok fs2 => (fs2, log ++ ["Successfully moved " ++ shot.name ++ "_SBS."])

/-- `_move_multiple_worker(shots)`. -/
def move_multiple_worker (cur dest : String) (fs : FS) (shots : List Shot) :
    FS × List String :=
  let r := shots.foldl (moveOneShot cur dest) (fs, [])
  (r.1, r.2 ++ ["All moves complete."])

/-- C4.  Promoting a shot whose destination `<shot>_SBS` already
exists under the destination root is a no-op: the worker logs the
attempt and the skip, changes nothing on the filesystem (in
particular the destination directory is not overwritten and the
persisted status store is untouched), raises nothing, and carries on
with the remaining shots of the batch. -/
theorem move_dest_exists_noop (cur dest : String) (fs : FS) (log : List String)
    (shot : Shot) (rest : List Shot)
    (hdst : dirExists fs (pjoin dest (shot.name ++ "_SBS")) = true) :
    moveOneShot cur dest (fs, log) shot =
      (fs, log ++ ["Moving " ++ shot.name ++ "_SBS...",
        "Skipping " ++ shot.name ++ "_SBS (source missing or destination exists)."]) ∧
    (shot :: rest).foldl (moveOneShot cur dest) (fs, log) =
      rest.foldl (moveOneShot cur dest)
        (fs, log ++ ["Moving " ++ shot.name ++ "_SBS...",
          "Skipping " ++ shot.name ++ "_SBS (source missing or destination exists)."]) := by
  have h1 : moveOneShot cur dest (fs, log) shot =
      (fs, log ++ ["Moving " ++ shot.name ++ "_SBS...",
        "Skipping " ++ shot.name ++ "_SBS (source missing or destination exists)."]) := by
    rw [moveOneShot]
    rw [if_pos (by rw [hdst]; simp)]
    simp
  exact ⟨h1, by rw [List.foldl_cons, h1]⟩

/-- Filesystem for the C4 witness: the shot's `_SBS` directory exists
beside the source and the destination already holds `sh01_SBS`; the
status store under `/cur` records nothing. -/
def fsDestTaken : FS :=
  ⟨[("/cur", ["sh01"]), ("/cur/sh01", ["a.exr"]),
    ("/cur/sh01_SBS", ["a_SBS.exr"]), ("/dst", ["sh01_SBS"]),
    ("/dst/sh01_SBS", ["old_SBS.exr"])], []⟩

/-- The shot snapshot used by the C4 witness. -/
def shotDestTaken : Shot :=
  ⟨"sh01", "/cur/sh01", true, 1, 1, false, 1, "Complete", 1, false, ""⟩

/-- Witness for `move_dest_exists_noop` at a concrete filesystem whose
destination directory already exists. -/
theorem move_dest_exists_noop_witness :
    moveOneShot "/cur" "/dst" (fsDestTaken, []) shotDestTaken =
      (fsDestTaken, ["Moving sh01_SBS...",
        "Skipping sh01_SBS (source missing or destination exists)."]) ∧
    [shotDestTaken].foldl (moveOneShot "/cur" "/dst") (fsDestTaken, []) =
      [].foldl (moveOneShot "/cur" "/dst")
        (fsDestTaken, ["Moving sh01_SBS...",
          "Skipping sh01_SBS (source missing or destination exists)."]) :=
  move_dest_exists_noop "/cur" "/dst" fsDestTaken [] shotDestTaken [] rfl

/-! ## Completion heuristic (`_handle_auto_processing`, lines 569-599)

Modification times are explicit inputs: `listingOf` is `os.listdir`
(`none` meaning the directory vanished — the caught
`FileNotFoundError`), `mtimeOf` is `os.path.getmtime` on full paths.
Timestamps, delays and the multiplier are rationals (Python floats
holding POSIX times and their means). -/

/-- The eligibility gate of the auto-move loop:
`shot.is_moved or shot.needs_conversion or shot.dropbox_status != "Complete"`
means skip. -/
def liveEligible (s : Shot) : Bool :=
  !(s.is_moved || s.needs_conversion || s.dropbox_status != "Complete")

/-- `sorted([os.path.join(shot.path, f) for f in os.listdir(shot.path)
if f.lower().endswith(".exr")])`. -/
def liveFrameFiles (path : String) (listing : List String) : List String :=
  sortStrings ((listing.filter isExr).map (pjoin path))

/-- `[timestamps[i] - timestamps[i-1] for i in range(1, len(timestamps))]`. -/
def consecDeltas (ts : List Rat) : List Rat :=
  (ts.zip ts.tail).map (fun p => p.2 - p.1)

/-- `sum(deltas) / len(deltas) if deltas else 0`. -/
def liveAvgDelta (ts : List Rat) : Rat :=
  let deltas := consecDeltas ts
  if deltas.isEmpty then 0 else deltas.sum / (deltas.length : Rat)

/-- One shot's auto-move decision: eligible, at least two frame files,
and `now - timestamps[-1] > max(min_delay, avg_delta * multiplier)` —
note `timestamps[-1]` is the modification time of the lexically last
file name, not the largest timestamp. -/
def liveMoveDecision (listingOf : String → Option (List String))
    (mtimeOf : String → Rat) (now minDelay mult : Rat) (s : Shot) : Bool :=
  if liveEligible s then
    match listingOf s.path with
    | none => false
    | some listing =>
      let files := liveFrameFiles s.path listing
      if files.length < 2 then false
      else
        let ts := files.map mtimeOf
        decide (now - ts.getLastD 0 > max minDelay (liveAvgDelta ts * mult))
  else false

/-- `shots_ready_to_move` of `_handle_auto_processing`. -/
def handleAutoMoveSelect (shots : List Shot)
    (listingOf : String → Option (List String)) (mtimeOf : String → Rat)
    (now minDelay mult : Rat) : List Shot :=
  shots.filter (liveMoveDecision listingOf mtimeOf now minDelay mult)

/-- The most recent (largest) of a list of timestamps. -/
def maxTimestamp (ts : List Rat) : Rat :=
  ts.foldl max (ts.headD 0)

/-- The claim's idle test, modelled from its words: now minus the
most recent frame modification timestamp exceeds
`max(configuredMinimumDelay, meanInterFrameDelta * configuredMultiplier)`. -/
def claimIdleFormula (ts : List Rat) (now minDelay mult : Rat) : Bool :=
  decide (now - maxTimestamp ts > max minDelay (liveAvgDelta ts * mult))

/-- Eligible shot used in the C3 counterexample. -/
def shotLive : Shot :=
  ⟨"sh01", "p", true, 2, 2, false, 1, "Complete", 1, false, ""⟩

/-- Listing of the C3 counterexample: directory `p` holds two frames. -/
def listingLive : String → Option (List String) :=
  fun q => if q = "p" then some ["a.exr", "b.exr"] else none

/-- Modification times of the C3 counterexample: the lexically first
frame `p/a.exr` is the most recent (mtime 100), the lexically last
`p/b.exr` is old (mtime 0). -/
def mtimeLive : String → Rat :=
  fun q => if q = "p/a.exr" then 100 else 0

/-- Counterexample to C3 as stated: with frames `a.exr` (mtime 100)
and `b.exr` (mtime 0), at `now = 50`, `min_delay = 30`,
`multiplier = 5`, the code promotes the shot — it compares against
`timestamps[-1] = 0`, the mtime of the lexically last file — while the
claim's test against the most recent timestamp (100) fails, since
`50 - 100` does not exceed the required idle delay of 30. -/
theorem live_promotion_claim_cex :
    handleAutoMoveSelect [shotLive] listingLive mtimeLive 50 30 5 = [shotLive] ∧
    claimIdleFormula
      ((liveFrameFiles "p" ["a.exr", "b.exr"]).map mtimeLive) 50 30 5 = false := by
  have hts : (liveFrameFiles "p" ["a.exr", "b.exr"]).map mtimeLive = [100, 0] := rfl
  constructor
  · have hdec : liveMoveDecision listingLive mtimeLive 50 30 5 shotLive = true := by
      have helig : liveEligible shotLive = true := rfl
      rw [liveMoveDecision, if_pos helig]
      show (if ([("p/a.exr" : String), "p/b.exr"].length < 2) then false
        else decide ((50 : Rat) - ([(100 : Rat), 0]).getLastD 0 >
          max 30 (liveAvgDelta [100, 0] * 5))) = true
      rw [if_neg (by decide)]
      have havg : liveAvgDelta [100, 0] = -100 := by
        norm_num [liveAvgDelta, consecDeltas]
      rw [havg]
      norm_num
    rw [handleAutoMoveSelect, List.filter_cons, hdec]
    rfl
  · rw [hts]
    have hmax : maxTimestamp [100, 0] = 100 := by
      norm_num [maxTimestamp]
    have havg : liveAvgDelta [100, 0] = -100 := by
      norm_num [liveAvgDelta, consecDeltas]
    rw [claimIdleFormula, hmax, havg]
    norm_num

/-- C3 amended.  In live mode, an eligible shot (not moved, conversion
complete, sync Complete) is selected for promotion exactly when its
source directory still lists at least two `.exr` files and `now` minus
the modification timestamp of the *lexically last* frame file (the
code's `timestamps[-1]`, not necessarily the most recent) exceeds
`max(configuredMinimumDelay, meanInterFrameDelta * configuredMultiplier)`;
a shot with fewer than two frames is never selected and remains
unmoved. -/
theorem live_promotion_amended (listingOf : String → Option (List String))
    (mtimeOf : String → Rat) (now minDelay mult : Rat)
    (shots : List Shot) (s : Shot) :
    (s ∈ handleAutoMoveSelect shots listingOf mtimeOf now minDelay mult ↔
      s ∈ shots ∧ liveMoveDecision listingOf mtimeOf now minDelay mult s = true) ∧
    (liveMoveDecision listingOf mtimeOf now minDelay mult s = true ↔
      liveEligible s = true ∧
      ∃ listing, listingOf s.path = some listing ∧
        2 ≤ (liveFrameFiles s.path listing).length ∧
        now - ((liveFrameFiles s.path listing).map mtimeOf).getLastD 0 >
          max minDelay
            (liveAvgDelta ((liveFrameFiles s.path listing).map mtimeOf) * mult)) := by
  constructor
  · exact List.mem_filter
  · constructor
    · intro h
      by_cases helig : liveEligible s = true
      · rw [liveMoveDecision, if_pos helig] at h
        refine ⟨helig, ?_⟩
        cases hl : listingOf s.path with
        | none =>
          rw [hl] at h
          simp at h
        | some listing =>
          rw [hl] at h
          dsimp only at h
          refine ⟨listing, rfl, ?_⟩
          by_cases hlen : (liveFrameFiles s.path listing).length < 2
          · rw [if_pos hlen] at h
            exact absurd h (by simp)
          · rw [if_neg hlen] at h
            exact ⟨by omega, of_decide_eq_true h⟩
      · rw [liveMoveDecision, if_neg helig] at h
        exact absurd h (by simp)
    · rintro ⟨helig, listing, hl, hlen, hidle⟩
      rw [liveMoveDecision, if_pos helig, hl]
      dsimp only
      rw [if_neg (by omega)]
      exact decide_eq_true hidle

/-! ## Claim C5: missing external tool

`start_convert` (lines 689-712) computes the selection, then calls
`find_oiiotool`; when the tool is absent it shows one error dialog and
returns without starting the worker, so no job is submitted.  The
live-mode auto path (`_handle_auto_processing`, lines 557-567) instead
starts `_convert_worker(shots_to_convert, self.oiiotool)` with the
stored handle and performs no such check. -/

/-- Outcome of `start_convert` before any conversion work happens. -/
inductive StartOutcome where
  | nothingSelected
  | missingTool
  | started (jobs : List (String × String))
deriving DecidableEq, Repr

/-- `[s for s, v in zip(self.shots, self.shot_vars) if v.get() and s.needs_conversion]`. -/
def selectedShots (shots : List Shot) (vars : List Bool) : List Shot :=
  ((shots.zip vars).filter (fun p => p.2 && p.1.needs_conversion)).map Prod.fst

/-- The jobs `_convert_worker` submits: one per outstanding frame of
every shot passed to it (`frameListOf` is `_frame_list`). -/
def convertWorkerJobs (frameListOf : String → List String) (shots : List Shot) :
    List (String × String) :=
  shots.flatMap (fun s => (frameListOf s.path).map (fun f => (s.name, f)))

/-- `start_convert`: empty selection reports and stops; then a missing
`find_oiiotool` result reports once and stops before any submission;
otherwise the worker is started on the selection. -/
def start_convert (shots : List Shot) (vars : List Bool)
    (findResult : Option String) (frameListOf : String → List String) :
    StartOutcome :=
  let selected := selectedShots shots vars
  if selected.isEmpty then .nothingSelected
  else
    match findResult with
    | none => .missingTool
    | some _ => .started (convertWorkerJobs frameListOf selected)

/-- The live-mode auto-conversion path: shots needing conversion are
handed straight to `_convert_worker` with the stored tool handle; no
presence check of the tool happens (the parameter is unused, mirroring
the code). -/
def autoConvertJobs (shots : List Shot) (_storedTool : Option String)
    (frameListOf : String → List String) : List (String × String) :=
  let toConvert := shots.filter (fun s => s.needs_conversion)
  if toConvert.isEmpty then [] else convertWorkerJobs frameListOf toConvert

/-- A shot still needing conversion, used in the C5 counterexample. -/
def shotNeeding : Shot :=
  ⟨"sh01", "p", false, 1, 0, true, 0, "Not Started", 0, false, ""⟩

/-- Counterexample to C5 as stated: in the live-mode conversion run
with the tool handle absent (`find_oiiotool` returned nothing at
startup), a job is still built and submitted for the outstanding
frame — the run is not aborted pre-flight, the condition is not
reported, and each submitted job then fails individually. -/
theorem auto_convert_submits_without_tool_cex :
    autoConvertJobs [shotNeeding] none (fun _ => ["f0001.exr"]) =
      [("sh01", "f0001.exr")] ∧
    autoConvertJobs [shotNeeding] none (fun _ => ["f0001.exr"]) ≠ [] := by
  constructor
  · rfl
  · intro h
    simp [autoConvertJobs, shotNeeding, convertWorkerJobs] at h

/-- C5 amended.  In the manual path, a missing converter executable is
detected after selection and before any job is submitted: with
`find_oiiotool` returning nothing, `start_convert` reports the missing
tool once and aborts (or reports an empty selection), never reaching
the `started` outcome; the live-mode auto path, by contrast, ignores
the stored tool handle entirely and submits its jobs regardless. -/
theorem missing_tool_manual_aborts_auto_ignores
    (shots : List Shot) (vars : List Bool)
    (frameListOf : String → List String) :
    (start_convert shots vars none frameListOf =
      if (selectedShots shots vars).isEmpty then .nothingSelected
      else .missingTool) ∧
    (∀ jobs : List (String × String),
      start_convert shots vars none frameListOf ≠ .started jobs) ∧
    (∀ tool : Option String,
      autoConvertJobs shots tool frameListOf =
        autoConvertJobs shots none frameListOf) := by
  have h1 : start_convert shots vars none frameListOf =
      if (selectedShots shots vars).isEmpty then .nothingSelected
      else .missingTool := by
    by_cases h : (selectedShots shots vars).isEmpty <;>
      simp [start_convert, h]
  refine ⟨h1, ?_, fun tool => rfl⟩
  intro jobs hc
  rw [h1] at hc
  by_cases h : (selectedShots shots vars).isEmpty <;>
    simp [h] at hc

/-- Witness for `missing_tool_manual_aborts_auto_ignores` on a
one-shot selection with the tool absent. -/
theorem missing_tool_manual_aborts_auto_ignores_witness :
    start_convert [shotNeeding] [true] none (fun _ => ["f0001.exr"]) =
      .missingTool ∧
    start_convert [shotNeeding] [true] none (fun _ => ["f0001.exr"]) ≠
      .started [("sh01", "f0001.exr")] ∧
    autoConvertJobs [shotNeeding] (some "oiiotool.exe")
        (fun _ => ["f0001.exr"]) =
      autoConvertJobs [shotNeeding] none (fun _ => ["f0001.exr"]) := by
  have h := missing_tool_manual_aborts_auto_ignores [shotNeeding] [true]
    (fun _ => ["f0001.exr"])
  exact ⟨by rw [h.1]; rfl, h.2.1 _, h.2.2 _⟩

/-! ## Claim C10: needs_conversion decided purely by counts -/

/-- Filesystem whose converted-output directory holds two `.exr` files
whose names correspond to no source frame. -/
def fsArbNames : FS :=
  ⟨[("/r", ["s01"]), ("/r/s01", ["a.exr", "b.exr"]),
    ("/r/s01_SBS", ["x.exr", "y.exr"])], []⟩

/-- C10.  For a scanned shot whose converted-output directory sits
beside the source (not yet moved), `needs_conversion` is exactly the
comparison `frame_count > sbs_frame_count` — non-`_SBS` `.exr` entries
of the source against `.exr` entries of any name in the converted
directory — and `has_sbs` is its negation; no per-frame name
correspondence is consulted, so the shot of `fsArbNames` (sources
`a.exr`, `b.exr`; converted `x.exr`, `y.exr`) is reported fully
converted even though the frame diff engine still returns both frames
as outstanding. -/
theorem needs_conversion_by_counts
    (fs : FS) (root comp name : String) (sts : StatusMap)
    (hcomp : dirExists fs (pjoin comp (name ++ "_SBS")) = false)
    (hsrc : dirExists fs (pjoin root name ++ "_SBS") = true) :
    ((scanOneShot fs root comp name sts).1.needs_conversion =
      decide (frame_count fs (pjoin root name) >
        sbs_frame_count fs (pjoin root name ++ "_SBS"))) ∧
    ((scanOneShot fs root comp name sts).1.has_sbs =
      !((scanOneShot fs root comp name sts).1.needs_conversion)) ∧
    ((scanOneShot fsArbNames "/r" "/c" "s01" []).1.has_sbs = true ∧
      frame_list ["a.exr", "b.exr"] (some (some ["x.exr", "y.exr"])) =
        ["a.exr", "b.exr"]) := by
  refine ⟨?_, rfl, rfl, rfl⟩
  rw [scanOneShot]
  simp only [hcomp, hsrc, Bool.false_eq_true, if_false, if_true]

/-- Witness for `needs_conversion_by_counts` at the concrete
filesystem with arbitrarily named converted files. -/
theorem needs_conversion_by_counts_witness :
    ((scanOneShot fsArbNames "/r" "/c" "s01" []).1.needs_conversion =
      decide (frame_count fsArbNames (pjoin "/r" "s01") >
        sbs_frame_count fsArbNames (pjoin "/r" "s01" ++ "_SBS"))) ∧
    ((scanOneShot fsArbNames "/r" "/c" "s01" []).1.has_sbs =
      !((scanOneShot fsArbNames "/r" "/c" "s01" []).1.needs_conversion)) ∧
    ((scanOneShot fsArbNames "/r" "/c" "s01" []).1.has_sbs = true ∧
      frame_list ["a.exr", "b.exr"] (some (some ["x.exr", "y.exr"])) =
        ["a.exr", "b.exr"]) :=
  needs_conversion_by_counts fsArbNames "/r" "/c" "s01" [] rfl rfl

end SbsGui
